import Mathlib

/-!
# A verification development for `shell.c`

The command interpreter of `src/shell.c` is embedded function by function.
C strings are lists of characters (the bytes before the terminating NUL), a
nullable `char *` is an `Option`, heap blocks are lists of bytes with checked
accesses, and every system call the program makes is appended to a log kept
in the process state, so that "is never consulted" and "is never spawned"
are statements about that log.
-/

namespace Shell

/-! ## Memory and process model -/

/-- Size in bytes of the path buffers: `const int MAX_PATH_SIZE = 128;`. -/
def MAX_PATH_SIZE : Nat := 128

/-- The terminating byte of a C string, written `'\000'` in the source. -/
def NUL : Char := Char.ofNat 0

/-- Ways a run leaves defined C behaviour. -/
inductive Fault
  | nullDeref
  | outOfBounds
  deriving DecidableEq, Repr

/-- What a non-null `char *` of the program points to. -/
inductive Str
  | text (s : List Char)
  | block (b : List Char)
  deriving DecidableEq, Repr

/-- Outcome of `opendir`: a directory stream, or NULL with `errno` either
`ENOENT` or something else. -/
inductive DirProbe
  | opened
  | enoent
  | otherErrno
  deriving DecidableEq, Repr

/-- What the process sees of `fork()`: `cpid > 0`, `cpid == 0`, `cpid < 0`. -/
inductive ForkResult
  | parent
  | child
  | failed
  deriving DecidableEq, Repr

/-- What a standard stream is bound to. -/
inductive Binding
  | inherited
  | file (path : List Char)
  deriving DecidableEq, Repr

/-- System and library calls with an effect outside the program's own memory. -/
inductive Call
  | opendir (p : List Char)
  | getenv (name : List Char)
  | stat (p : List Char)
  | openNonblock (p : Option (List Char))
  | dup2 (src : List Char) (stream : Nat)
  | fork
  | wait
  | execv (path : Option (List Char))
  | getcwd
  | chdir (p : List Char)
  | print (s : List Char)
  | exit (code : Nat)
  deriving DecidableEq, Repr

/-- The world outside the process: environment, file system answers, and the
outcome of each allocation and of `fork`. A block that `malloc` hands out has
arbitrary initial bytes, given as a function of the offset. -/
structure OS where
  PATH : Option (List Char)
  opendir : List Char → DirProbe
  stat : List Char → Bool
  openOk : List Char → Bool
  dup2Ok : Nat → Bool
  chdirOk : List Char → Bool
  cwd : Option (List Char)
  execvOk : List Char → Bool
  fork : ForkResult
  pathBlock : Option (Nat → Char)
  pwdBlock : Option (Nat → Char)
  argsAlloc : Bool
  interactive : Bool

/-- Process-wide mutable state: the bindings of standard input and output,
and the log of calls made so far (oldest first). -/
structure Proc where
  stdin : Binding
  stdout : Binding
  log : List Call
  deriving DecidableEq, Repr

/-- Append one call to the log. -/
def Proc.call (st : Proc) (c : Call) : Proc :=
  { st with log := st.log ++ [c] }

/-- How a C function's run ends. -/
inductive Outcome (α : Type)
  | ret (a : α) (st : Proc)
  | exited (code : Nat) (st : Proc)
  | replaced (path : List Char) (argv : List (List Char)) (st : Proc)
  | fault (f : Fault) (st : Proc)
  deriving DecidableEq, Repr

/-- Sequencing: run `k` on the value and state a call returned with; any
other ending of the call ends the caller the same way. -/
def Outcome.bind {α β : Type} (o : Outcome α) (k : α → Proc → Outcome β) : Outcome β :=
  match o with
  | .ret a st => k a st
  | .exited code st => .exited code st
  | .replaced path argv st => .replaced path argv st
  | .fault f st => .fault f st

/-- The process state a run ends in. -/
def Outcome.state {α : Type} : Outcome α → Proc
  | .ret _ st => st
  | .exited _ st => st
  | .replaced _ _ st => st
  | .fault _ st => st

/-- A freshly allocated block of `n` bytes whose initial contents are `init`. -/
def fresh (init : Nat → Char) (n : Nat) : List Char :=
  (List.range n).map init

/-- Read `*(b + k)`; `none` when the offset is outside the block. -/
def peek (b : List Char) (k : Int) : Option Char :=
  if 0 ≤ k then b[k.toNat]? else none

/-- Write `*(b + k) = v`; `none` when the offset is outside the block. -/
def poke (b : List Char) (k : Int) (v : Char) : Option (List Char) :=
  if 0 ≤ k ∧ k.toNat < b.length then some (b.set k.toNat v) else none

/-- The C string a block starts with: the bytes before its first NUL;
`none` when the block holds no NUL, so that reading runs off its end. -/
def cstr : List Char → Option (List Char)
  | [] => none
  | c :: cs => if c = NUL then some [] else (cstr cs).map (c :: ·)

/-- Library `strcat(dst, src)`: `src` and a terminator are written over `dst`
from its first NUL on; `none` when that leaves the block. -/
def strcat (dst src : List Char) : Option (List Char) :=
  match cstr dst with
  | none => none
  | some s =>
    if s.length + src.length + 1 ≤ dst.length then
      some (s ++ src ++ [NUL] ++ dst.drop (s.length + src.length + 1))
    else none

/-- The string a pointer is read as. -/
def Str.read : Str → Option (List Char)
  | .text s => some s
  | .block b => cstr b

/-! ## Path resolution: `procpathenv` and `detpath` -/

/-- The `for` loop of `procpathenv`: `env` is what is left of PATH from `c`
on, `i` the write offset, `path` the 128-byte buffer. -/
def procpathenv_loop (os : OS) (name : List Char) :
    List Char → Int → List Char → Proc → Outcome (List Char)
  | [], _, path, st => .ret path st
  | c :: cs, i, path, st =>
    if c = ':' then
      let cand : Option (List Char × List Char) := do
        let prev ← peek path (i - 1)
        let path1 ← if prev ≠ '/' then poke path i '/' else some path
        let path2 ← poke path1 (i + 1) NUL
        let path3 ← strcat path2 name
        let s ← cstr path3
        pure (path3, s)
      match cand with
      | none => .fault .outOfBounds st
      | some (path3, s) =>
        let st1 := st.call (.stat s)
        if os.stat s then .ret path3 st1
        else procpathenv_loop os name cs (-1 + 1) path3 st1
    else
      match poke path i c with
      | none => .fault .outOfBounds st
      | some path1 => procpathenv_loop os name cs (i + 1) path1 st

/-- Source `procpathenv(env, name)`: NULL when the buffer cannot be allocated,
otherwise the buffer as the loop leaves it. A NULL `env` is dereferenced by
the loop condition. -/
def procpathenv (os : OS) (env : Option (List Char)) (name : List Char) (st : Proc) :
    Outcome (Option (List Char)) :=
  match os.pathBlock with
  | none => .ret none st
  | some init =>
    match env with
    | none => .fault .nullDeref st
    | some e =>
      (procpathenv_loop os name e 0 (fresh init MAX_PATH_SIZE) st).bind
        fun path st1 => .ret (some path) st1

/-- Source `detpath(ppath)`. -/
def detpath (os : OS) (ppath : Option (List Char)) (st : Proc) : Outcome (Option Str) :=
  match ppath with
  | none => .fault .nullDeref st
  | some p =>
    if p.head? = some '/' then .ret (some (.text p)) st
    else
      let st1 := st.call (.opendir p)
      match os.opendir p with
      | .opened => .ret (some (.text p)) st1
      | .otherErrno => .ret (some (.text p)) st1
      | .enoent =>
        (procpathenv os os.PATH p (st1.call (.getenv "PATH".toList))).bind
          fun enpath st2 =>
            match enpath with
            | none => .ret none st2
            | some b => .ret (some (.block b)) st2

/-- The string a returned path is read as: `none` for NULL or a block with no
terminator. -/
def pathText (r : Option Str) : Option (List Char) :=
  r.bind Str.read

/-! ## Tokens, argument vector and redirection -/

/-- Modelled from the spec: `tokens_get_token` of `tokenizer.h`, whose
definition is not part of `src/`. The token sequence is "an ordered,
index-addressable list of owned strings" in which index 0 is the command name
"if present"; an index with no token yields the absent (NULL) result. -/
def tokens_get_token (tokens : List (List Char)) (n : Nat) : Option (List Char) :=
  tokens[n]?

/-- Rebind a standard stream: what `dup2(fd, stream)` does to descriptor 0 or 1. -/
def Proc.rebind (st : Proc) (stream : Nat) (b : Binding) : Proc :=
  match stream with
  | 0 => { st with stdin := b }
  | 1 => { st with stdout := b }
  | _ => st

/-- Source `redirection(path, stream)`: `open` then `dup2` in the calling
process. A NULL path makes `open` fail. -/
def redirection (os : OS) (path : Option (List Char)) (stream : Nat) (st : Proc) :
    Outcome Int :=
  let st1 := st.call (.openNonblock path)
  match path with
  | none => .ret (-1) st1
  | some p =>
    if os.openOk p then
      let st2 := st1.call (.dup2 p stream)
      if os.dup2Ok stream then .ret 0 (st2.rebind stream (.file p))
      else .ret (-1) st2
    else .ret (-1) st1

/-- Write `args[i] = v`; `none` when slot `i` was not allocated. -/
def store (args : List (Option Str)) (i : Nat) (v : Option Str) :
    Option (List (Option Str)) :=
  if i < args.length then some (args.set i v) else none

/-- The copy loop of `args_proc`, `for (i = 1; i < tokens_length; i++)`, run
over the tokens from index `i` on; it yields the final `i` with the vector. -/
def args_copy : List (List Char) → Nat → List (Option Str) →
    Option (Nat × List (Option Str))
  | [], i, args => some (i, args)
  | t :: rest, i, args =>
    match store args i (some (.text t)) with
    | none => none
    | some args1 => args_copy rest (i + 1) args1

/-- Source `args_proc(path, tokens)`. The vector has `tokens_length + 1`
slots; every slot that is read has been written before, so the initial
contents of the allocation (here NULL) never show. -/
def args_proc (os : OS) (path : Option Str) (tokens : List (List Char)) (st : Proc) :
    Outcome (List (Option Str)) :=
  if os.argsAlloc = false then .exited 1 (st.call (.exit 1))
  else
    let built : Option (List (Option Str)) := do
      let args1 ← store (List.replicate (tokens.length + 1) none) 0 path
      let (i, args2) ← args_copy (tokens.drop 1) 1 args1
      store args2 i none
    match built with
    | none => .fault .outOfBounds st
    | some args =>
      match args[1]? with
      | none => .fault .outOfBounds st
      | some none => .ret args st
      | some (some a1) =>
        if a1.read = some ">".toList ∨ a1.read = some "<".toList then
          match args[2]? with
          | none => .fault .outOfBounds st
          | some a2 =>
            (redirection os (a2.bind Str.read)
                (if a1.read = some ">".toList then 1 else 0) st).bind
              fun _ st1 =>
                match store args 1 none with
                | none => .fault .outOfBounds st1
                | some args4 => .ret args4 st1
        else .ret args st

/-- The arguments `execv` sees: the slots before the first NULL. -/
def argv_read : List (Option Str) → List Str
  | some a :: rest => a :: argv_read rest
  | _ => []

/-! ## Built-in commands and dispatch -/

/-- The four handlers a `cmd_fun_t *` of the table can point to. -/
inductive cmd_fun_t
  | cmd_help
  | cmd_exit
  | cmd_pwd
  | cmd_cd
  deriving DecidableEq, Repr

/-- Source `struct fun_desc`. -/
structure fun_desc_t where
  func : cmd_fun_t
  cmd : List Char
  doc : List Char
  deriving DecidableEq, Repr

/-- Source `cmd_table`. -/
def cmd_table : List fun_desc_t :=
  [ ⟨.cmd_help, "?".toList, "show this help menu".toList⟩,
    ⟨.cmd_exit, "exit".toList, "exit the command shell".toList⟩,
    ⟨.cmd_pwd, "pwd".toList, "prints the current working directory".toList⟩,
    ⟨.cmd_cd, "cd".toList,
      "changes current working directory on directory provided by arg".toList⟩ ]

/-- The loop of `lookup` from table index `i` on. -/
def lookup_from (cmd : Option (List Char)) : List fun_desc_t → Nat → Int
  | [], _ => -1
  | e :: rest, i =>
    if cmd = some e.cmd then (i : Int) else lookup_from cmd rest (i + 1)

/-- Source `lookup(cmd)`: a NULL `cmd` matches no entry. -/
def lookup (cmd : Option (List Char)) : Int :=
  lookup_from cmd cmd_table 0

/-- Source `cmd_help`. -/
def cmd_help (st : Proc) : Outcome Int :=
  .ret 1 (cmd_table.foldl
    (fun s e => s.call (.print (e.cmd ++ " - ".toList ++ e.doc ++ "\n".toList))) st)

/-- Source `cmd_exit`. -/
def cmd_exit (st : Proc) : Outcome Int :=
  .exited 0 (st.call (.exit 0))

/-- Library `getcwd(buf, size)`: the directory and its terminator are stored
when they fit; on failure the buffer is left as it was. -/
def getcwd (os : OS) (buf : List Char) (size : Nat) : List Char :=
  match os.cwd with
  | none => buf
  | some d =>
    if d.length + 1 ≤ size then d ++ [NUL] ++ buf.drop (d.length + 1) else buf

/-- Source `cmd_pwd`: the result of `getcwd` is not looked at. -/
def cmd_pwd (os : OS) (st : Proc) : Outcome Int :=
  match os.pwdBlock with
  | none => .ret (-1) st
  | some init =>
    let st1 := st.call .getcwd
    match cstr (getcwd os (fresh init MAX_PATH_SIZE) MAX_PATH_SIZE) with
    | none => .fault .outOfBounds st1
    | some s =>
      .ret 1 (st1.call (.print ("Path to current directory: ".toList ++ s ++ "\n".toList)))

/-- Source `cmd_cd`: `tokens->tokens[1]` is read without a length check. -/
def cmd_cd (os : OS) (tokens : List (List Char)) (st : Proc) : Outcome Int :=
  match tokens[1]? with
  | none => .fault .outOfBounds st
  | some d =>
    let st1 := st.call (.chdir d)
    if os.chdirOk d then .ret 1 st1
    else .ret 1 (st1.call (.print "No such file or directory\n".toList))

/-- The call `cmd_table[fundex].fun(tokens)` through the function pointer. -/
def call_fun (f : cmd_fun_t) (os : OS) (tokens : List (List Char)) (st : Proc) :
    Outcome Int :=
  match f with
  | .cmd_help => cmd_help st
  | .cmd_exit => cmd_exit st
  | .cmd_pwd => cmd_pwd os st
  | .cmd_cd => cmd_cd os tokens st

/-! ## Launching and the command loop -/

/-- Source `shell_exec(tokens)`, followed in whichever process `fork`
returns in. -/
def shell_exec (os : OS) (tokens : List (List Char)) (st : Proc) : Outcome Int :=
  (detpath os (tokens_get_token tokens 0) st).bind fun path st1 =>
  (args_proc os path tokens st1).bind fun args st2 =>
    let st3 := st2.call .fork
    match os.fork with
    | .parent => .ret 1 (st3.call .wait)
    | .child =>
      match path with
      | none => .exited 0 ((st3.call (.execv none)).call (.exit 0))
      | some p =>
        match p.read with
        | none => .fault .outOfBounds st3
        | some s =>
          let st4 := st3.call (.execv (some s))
          if os.execvOk s then .replaced s ((argv_read args).filterMap Str.read) st4
          else .exited 0 (st4.call (.exit 0))
    | .failed => .exited 1 (st3.call (.exit 1))

/-- Arithmetic on the 32-bit `int` of the source: the value is reduced into
the range from -2^31 to 2^31 - 1. -/
def wrap_int (x : Int) : Int :=
  (x + 2147483648) % 4294967296 - 2147483648

/-- The text `printf` gives for `%d`. -/
def printf_d (n : Int) : List Char :=
  if n < 0 then '-' :: (Nat.repr n.natAbs).toList else (Nat.repr n.toNat).toList

/-- Whether a call creates or starts an external program. -/
def Call.spawns : Call → Bool
  | .fork => true
  | .execv _ => true
  | _ => false

/-- The end of a pass of the loop of `main`, after the command returned: the
prompt `"%d: "` with `++line_num` when the shell is interactive, `line_num`
being an `int`. -/
def next_prompt (os : OS) (line_num : Int) (_status : Int) (st : Proc) : Outcome Int :=
  if os.interactive then
    .ret (wrap_int (line_num + 1))
      (st.call (.print (printf_d (wrap_int (line_num + 1)) ++ ": ".toList)))
  else .ret line_num st

/-- One pass of the `while (fgets ...)` loop of `main` on the tokens of the
line just read; returning means the loop goes on to the next `fgets`. The
value is the new `line_num`. -/
def main_pass (os : OS) (line_num : Int) (tokens : List (List Char)) (st : Proc) :
    Outcome Int :=
  let fundex := lookup (tokens_get_token tokens 0)
  let ran : Outcome Int :=
    if fundex ≥ 0 then
      match cmd_table[fundex.toNat]? with
      | none => .fault .outOfBounds st
      | some e => call_fun e.func os tokens st
    else shell_exec os tokens st
  ran.bind (next_prompt os line_num)

/-- Whether a run of `detpath` ended by returning the NULL pointer. -/
def returnsNull : Outcome (Option Str) → Bool
  | .ret none _ => true
  | _ => false

/-! ## Concrete worlds used as inputs -/

/-- A world for bare command names: `opendir` reports "no such entry" for
every name, `PATH` is as given, exactly the listed files exist (for `stat`
and `open`), allocations succeed with initial bytes `init`, and `fork`
returns in the parent. -/
def world (PATH : Option (List Char)) (files : List (List Char)) (init : Nat → Char) : OS where
  PATH := PATH
  opendir := fun _ => .enoent
  stat := fun p => files.contains p
  openOk := fun p => files.contains p
  dup2Ok := fun _ => true
  chdirOk := fun _ => false
  cwd := some "/".toList
  execvOk := fun p => files.contains p
  fork := .parent
  pathBlock := some init
  pwdBlock := some init
  argsAlloc := true
  interactive := false

/-- A process with both standard streams as inherited and an empty log. -/
def startProc : Proc :=
  ⟨.inherited, .inherited, []⟩

/-- Initial bytes of a block that still holds the string `s` of an earlier
use, followed by NULs. -/
def staleBytes (s : List Char) : Nat → Char :=
  fun k => s.getD k NUL

/-- The text of a returned path next to the final state. -/
def resolved (o : Outcome (Option Str)) : Outcome (Option (List Char)) :=
  o.bind fun r st => .ret (pathText r) st

/-! ## Theorems -/

set_option maxRecDepth 100000

/-- The copy loop fills the free slots after `pre` with the tokens in order
and stops at offset `pre.length + rest.length`. -/
theorem args_copy_fills (rest : List (List Char)) (pre : List (Option Str)) (k : Nat) :
    args_copy rest pre.length (pre ++ List.replicate (rest.length + k) none)
      = some (pre.length + rest.length,
          pre ++ rest.map (fun t => some (Str.text t)) ++ List.replicate k none) := by
  induction rest generalizing pre with
  | nil => simp [args_copy]
  | cons t rest ih =>
    have hlen : rest.length + 1 + k = (rest.length + k) + 1 := by omega
    have h := ih (pre ++ [some (Str.text t)])
    simp only [List.length_append, List.length_singleton, List.append_assoc,
      List.singleton_append] at h
    simp only [args_copy, store, List.length_cons, List.length_append, List.length_replicate,
      hlen, List.replicate_succ, List.map_cons, List.append_assoc, List.cons_append]
    rw [if_pos (by omega)]
    simp only [List.set_append_right _ _ (Nat.le_refl _), Nat.sub_self, List.set_cons_zero]
    rw [h]
    simp [Nat.add_assoc, Nat.add_comm 1]

/-- What `args_proc` has built before it looks for a redirection: the path,
the tokens after the first in order, and the terminator. -/
theorem args_built (p : Option Str) (t0 : List Char) (rest : List (List Char)) :
    (do
      let args1 ← store (List.replicate ((t0 :: rest).length + 1) none) 0 p
      let (i, args2) ← args_copy ((t0 :: rest).drop 1) 1 args1
      store args2 i none)
      = some (p :: (rest.map (fun t => some (Str.text t)) ++ [none])) := by
  have h := args_copy_fills rest [p] 1
  simp only [List.length_singleton, List.singleton_append, List.cons_append,
    List.replicate_one] at h
  simp only [store, List.length_cons, List.length_replicate, List.replicate_succ,
    List.set_cons_zero, List.drop_succ_cons, List.drop_zero]
  rw [if_pos (by omega)]
  simp only [Option.bind_eq_bind, Option.some_bind]
  simp only [List.nil_append, List.replicate_succ] at h
  rw [h]
  have hset : ∀ (l : List (Option Str)), (l ++ [none]).set l.length none = l ++ [none] := by
    intro l
    rw [List.set_append_right _ _ (Nat.le_refl _)]
    simp
  have hl := hset (p :: rest.map (fun t => some (Str.text t)))
  simp only [List.length_cons, List.length_map, List.cons_append] at hl
  simp only [Option.some_bind, List.length_cons, List.length_append, List.length_map,
    List.length_singleton, Nat.add_comm 1 rest.length]
  rw [if_pos (by omega), hl]

/-- C2: when the token after the command name is neither ">" nor "<" (or is
missing), `args_proc` returns the vector of `n + 1` slots holding the
resolved path, then the tokens after the first in their order, then NULL, and
leaves the process state as it was: no redirection call is made, whatever
the later tokens are. -/
theorem args_proc_plain (os : OS) (p : Option Str) (t0 : List Char)
    (rest : List (List Char)) (st : Proc) (halloc : os.argsAlloc = true)
    (hgt : rest.head? ≠ some ">".toList) (hlt : rest.head? ≠ some "<".toList) :
    args_proc os p (t0 :: rest) st
        = .ret (p :: (rest.map (fun t => some (Str.text t)) ++ [none])) st
      ∧ (p :: (rest.map (fun t => some (Str.text t)) ++ [none])).length
        = (t0 :: rest).length + 1 := by
  have hb := args_built p t0 rest
  refine ⟨?_, by simp⟩
  unfold args_proc
  simp only [halloc]
  rw [hb]
  cases rest with
  | nil => simp
  | cons t1 rest1 =>
    have h1 : t1 ≠ ['>'] := fun h => hgt (by simp [h])
    have h2 : t1 ≠ ['<'] := fun h => hlt (by simp [h])
    simp [Str.read, h1, h2]

/-- Witness for C2: tokens ["ls", "-l"] with the path "/bin/ls" give
["/bin/ls", "-l", NULL]. -/
theorem args_proc_plain_witness :
    (world none [] (fun _ => 'X')).argsAlloc = true
      ∧ ["-l".toList].head? ≠ some ">".toList ∧ ["-l".toList].head? ≠ some "<".toList
      ∧ args_proc (world none [] (fun _ => 'X')) (some (.text "/bin/ls".toList))
          ["ls".toList, "-l".toList] startProc
        = .ret [some (.text "/bin/ls".toList), some (.text "-l".toList), none] startProc :=
  ⟨rfl, by decide, by decide,
    (args_proc_plain (world none [] (fun _ => 'X')) (some (.text "/bin/ls".toList))
      "ls".toList ["-l".toList] startProc rfl (by decide) (by decide)).1⟩

/-- C3: when the second token is exactly ">" (or "<") and a third token
follows, `args_proc` makes one call `redirection(token[2], 1)` (or
`redirection(token[2], 0)`) and nothing else: that call opens `token[2]`
once, and the vector returned has NULL in slot 1, so that the arguments read
after `argument[0]` up to the terminator are none at all, the marker and the
operand not among them. -/
theorem args_proc_redirect (os : OS) (p : Option Str) (t0 m t2 : List Char)
    (rest : List (List Char)) (st : Proc) (halloc : os.argsAlloc = true)
    (hm : m = ">".toList ∨ m = "<".toList) :
    args_proc os p (t0 :: m :: t2 :: rest) st
        = (redirection os (some t2) (if m = ">".toList then 1 else 0) st).bind
            (fun _ st1 => .ret
              (p :: none :: some (Str.text t2)
                :: (rest.map (fun t => some (Str.text t)) ++ [none])) st1)
      ∧ (∃ r st1, redirection os (some t2) (if m = ">".toList then 1 else 0) st = .ret r st1
          ∧ st1.log = st.log ++ Call.openNonblock (some t2)
              :: (if os.openOk t2 then [Call.dup2 t2 (if m = ">".toList then 1 else 0)]
                  else []))
      ∧ argv_read ((p :: none :: some (Str.text t2)
            :: (rest.map (fun t => some (Str.text t)) ++ [none])).tail) = [] := by
  have hb := args_built p t0 (m :: t2 :: rest)
  refine ⟨?_, ?_, by simp [argv_read]⟩
  · unfold args_proc
    simp only [halloc]
    rw [hb]
    have hm2 : m = ['>'] ∨ m = ['<'] := by simpa using hm
    rcases hm2 with h | h <;> subst h <;> simp [Str.read, store]
  · unfold redirection
    by_cases ho : os.openOk t2 = true
    · by_cases hd : os.dup2Ok (if m = ">".toList then 1 else 0) = true
      · refine ⟨0, _, by simp only [ho, hd, if_true]; rfl, ?_⟩
        rcases hm with h | h <;> simp [h, Proc.call, Proc.rebind, ho]
      · refine ⟨-1, _, by simp only [ho, hd, if_true]; rfl, ?_⟩
        simp [Proc.call, ho]
    · refine ⟨-1, _, by simp only [ho]; rfl, ?_⟩
      simp [Proc.call, ho]

/-- Witness for C3: the line "cat > out.txt" with "out.txt" present rebinds
standard output to "out.txt" and returns ["/bin/cat", NULL, "out.txt", NULL]. -/
theorem args_proc_redirect_witness :
    (world none ["out.txt".toList] (fun _ => 'X')).argsAlloc = true
      ∧ (">".toList = ">".toList ∨ ">".toList = "<".toList)
      ∧ args_proc (world none ["out.txt".toList] (fun _ => 'X'))
          (some (.text "/bin/cat".toList))
          ["cat".toList, ">".toList, "out.txt".toList] startProc
        = .ret [some (.text "/bin/cat".toList), none, some (.text "out.txt".toList), none]
            ⟨.inherited, .file "out.txt".toList,
              [.openNonblock (some "out.txt".toList), .dup2 "out.txt".toList 1]⟩ :=
  ⟨rfl, Or.inl rfl,
    (args_proc_redirect (world none ["out.txt".toList] (fun _ => 'X'))
      (some (.text "/bin/cat".toList)) "cat".toList ">".toList "out.txt".toList [] startProc
      rfl (Or.inl rfl)).1.trans (by decide)⟩

/-- The five ways `lookup` can answer on a present name. -/
theorem lookup_cases (c : List Char) :
    (c = "?".toList ∧ lookup (some c) = 0) ∨ (c = "exit".toList ∧ lookup (some c) = 1)
      ∨ (c = "pwd".toList ∧ lookup (some c) = 2) ∨ (c = "cd".toList ∧ lookup (some c) = 3)
      ∨ ((∀ e ∈ cmd_table, e.cmd ≠ c) ∧ lookup (some c) = -1) := by
  by_cases h0 : c = "?".toList
  · subst h0; exact Or.inl ⟨rfl, by decide⟩
  by_cases h1 : c = "exit".toList
  · subst h1; exact Or.inr (Or.inl ⟨rfl, by decide⟩)
  by_cases h2 : c = "pwd".toList
  · subst h2; exact Or.inr (Or.inr (Or.inl ⟨rfl, by decide⟩))
  by_cases h3 : c = "cd".toList
  · subst h3; exact Or.inr (Or.inr (Or.inr (Or.inl ⟨rfl, by decide⟩)))
  refine Or.inr (Or.inr (Or.inr (Or.inr ⟨?_, ?_⟩)))
  · intro e he
    simp only [cmd_table, List.mem_cons, List.mem_singleton, List.not_mem_nil, or_false] at he
    rcases he with h | h | h | h <;> subst h <;> intro hc <;> simp_all
  · simp only [String.toList] at h0 h1 h2 h3
    simp [lookup, lookup_from, cmd_table, h0, h1, h2, h3]

/-- What `cmd_help` does: it returns 1 after printing the four table lines. -/
theorem cmd_help_prints (st : Proc) :
    cmd_help st = .ret 1
      { st with log := st.log ++
          [ .print "? - show this help menu\n".toList,
            .print "exit - exit the command shell\n".toList,
            .print "pwd - prints the current working directory\n".toList,
            .print ("cd - changes current working directory on directory provided by arg\n"
              ).toList ] } := by
  simp [cmd_help, cmd_table, Proc.call]

/-- The calls a built-in handler adds to the log spawn nothing. -/
theorem call_fun_log (f : cmd_fun_t) (os : OS) (tokens : List (List Char)) (st : Proc) :
    ∃ extra, (call_fun f os tokens st).state.log = st.log ++ extra
      ∧ ∀ c ∈ extra, c.spawns = false := by
  cases f
  · simp only [call_fun, cmd_help_prints, Outcome.state]
    constructor; constructor
    · rfl
    · simp [Call.spawns]
  · simp only [call_fun, cmd_exit, Outcome.state, Proc.call]
    constructor; constructor
    · rfl
    · simp [Call.spawns]
  · simp only [call_fun, cmd_pwd]
    split
    · exact ⟨[], by simp [Outcome.state], by simp⟩
    · split
      · simp only [Outcome.state, Proc.call]
        constructor; constructor
        · rfl
        · simp [Call.spawns]
      · simp only [Outcome.state, Proc.call]
        constructor; constructor
        · exact List.append_assoc _ _ _
        · simp [Call.spawns]
  · simp only [call_fun, cmd_cd]
    split
    · exact ⟨[], by simp [Outcome.state], by simp⟩
    · split
      · simp only [Outcome.state, Proc.call]
        constructor; constructor
        · rfl
        · simp [Call.spawns]
      · simp only [Outcome.state, Proc.call]
        constructor; constructor
        · exact List.append_assoc _ _ _
        · simp [Call.spawns]

/-- The prompt at the end of a pass adds no spawning call to the log. -/
theorem bind_next_prompt_log (o : Outcome Int) (os : OS) (line_num : Int) :
    ∃ extra, (o.bind (next_prompt os line_num)).state.log = o.state.log ++ extra
      ∧ ∀ c ∈ extra, c.spawns = false := by
  cases o with
  | ret a st1 =>
    by_cases hi : os.interactive = true
    · exact ⟨[.print (printf_d (wrap_int (line_num + 1)) ++ ": ".toList)],
        by simp [Outcome.bind, next_prompt, hi, Outcome.state, Proc.call],
        by simp [Call.spawns]⟩
    · exact ⟨[], by simp [Outcome.bind, next_prompt, hi, Outcome.state], by simp⟩
  | exited code st1 => exact ⟨[], by simp [Outcome.bind, Outcome.state], by simp⟩
  | replaced path argv st1 => exact ⟨[], by simp [Outcome.bind, Outcome.state], by simp⟩
  | fault f st1 => exact ⟨[], by simp [Outcome.bind, Outcome.state], by simp⟩

/-- A pass that runs a built-in adds no spawning call to the log. -/
theorem builtin_pass_log (f : cmd_fun_t) (os : OS) (line_num : Int)
    (tokens : List (List Char)) (st : Proc) :
    ∃ extra, ((call_fun f os tokens st).bind (next_prompt os line_num)).state.log
        = st.log ++ extra
      ∧ ∀ c ∈ extra, c.spawns = false := by
  obtain ⟨x1, h1, n1⟩ := call_fun_log f os tokens st
  obtain ⟨x2, h2, n2⟩ := bind_next_prompt_log (call_fun f os tokens st) os line_num
  refine ⟨x1 ++ x2, by rw [h2, h1, List.append_assoc], ?_⟩
  intro c hc
  rcases List.mem_append.mp hc with h | h
  · exact n1 c h
  · exact n2 c h

/-- C4: `lookup` returns the table index of the entry named `n` ("?" 0,
"exit" 1, "pwd" 2, "cd" 3), and -1 when no entry has that name or the name is
absent. When `lookup` returns an index for the first token, the pass of the
command loop runs the handler of that table entry and then the prompt:
`cmd_help` (which prints the four table lines and returns 1) for index 0,
`cmd_exit` (which ends the process with status 0) for index 1, `cmd_pwd` for
index 2, `cmd_cd` for index 3. What the pass appends to the call log,
whatever the log held before, contains no `fork` and no `execv`:
`shell_exec` is not entered. -/
theorem lookup_dispatch (os : OS) (line_num : Int) (tokens : List (List Char)) (st : Proc)
    (n : List Char) :
    (lookup (some "?".toList) = 0 ∧ lookup (some "exit".toList) = 1
        ∧ lookup (some "pwd".toList) = 2 ∧ lookup (some "cd".toList) = 3)
      ∧ (∀ (i : Nat) (e : fun_desc_t), cmd_table[i]? = some e → e.cmd = n →
          lookup (some n) = (i : Int))
      ∧ ((∀ e ∈ cmd_table, e.cmd ≠ n) → lookup (some n) = -1)
      ∧ lookup none = -1
      ∧ (0 ≤ lookup (tokens_get_token tokens 0) →
          (∃ e, cmd_table[(lookup (tokens_get_token tokens 0)).toNat]? = some e
            ∧ tokens_get_token tokens 0 = some e.cmd)
          ∧ (∃ extra, (main_pass os line_num tokens st).state.log = st.log ++ extra
              ∧ ∀ c ∈ extra, c.spawns = false))
      ∧ (lookup (tokens_get_token tokens 0) = 0 →
          main_pass os line_num tokens st = (cmd_help st).bind (next_prompt os line_num)
          ∧ main_pass os line_num tokens st
            = next_prompt os line_num 1
                { st with log := st.log ++
                    [ .print "? - show this help menu\n".toList,
                      .print "exit - exit the command shell\n".toList,
                      .print "pwd - prints the current working directory\n".toList,
                      .print
                        ("cd - changes current working directory on directory provided by arg\n"
                          ).toList ] })
      ∧ (lookup (tokens_get_token tokens 0) = 1 →
          main_pass os line_num tokens st = (cmd_exit st).bind (next_prompt os line_num)
          ∧ main_pass os line_num tokens st = .exited 0 (st.call (.exit 0)))
      ∧ (lookup (tokens_get_token tokens 0) = 2 →
          main_pass os line_num tokens st = (cmd_pwd os st).bind (next_prompt os line_num))
      ∧ (lookup (tokens_get_token tokens 0) = 3 →
          main_pass os line_num tokens st
            = (cmd_cd os tokens st).bind (next_prompt os line_num)) := by
  have key : ∀ (k : Nat) (e : fun_desc_t),
      lookup (tokens_get_token tokens 0) = (k : Int) → cmd_table[k]? = some e →
      main_pass os line_num tokens st
        = (call_fun e.func os tokens st).bind (next_prompt os line_num) := by
    intro k e hk he
    simp [main_pass, hk, he]
  refine ⟨⟨by decide, by decide, by decide, by decide⟩, ?_, ?_, by decide, ?_, ?_, ?_, ?_, ?_⟩
  · intro i e hi hn
    subst hn
    match i, hi with
    | 0, hi => simp [cmd_table] at hi; subst hi; decide
    | 1, hi => simp [cmd_table] at hi; subst hi; decide
    | 2, hi => simp [cmd_table] at hi; subst hi; decide
    | 3, hi => simp [cmd_table] at hi; subst hi; decide
    | k + 4, hi => simp [cmd_table] at hi
  · intro hno
    rcases lookup_cases n with h | h | h | h | h
    · exact absurd h.1.symm
        (hno ⟨.cmd_help, "?".toList, "show this help menu".toList⟩ (by decide))
    · exact absurd h.1.symm
        (hno ⟨.cmd_exit, "exit".toList, "exit the command shell".toList⟩ (by decide))
    · exact absurd h.1.symm
        (hno ⟨.cmd_pwd, "pwd".toList, "prints the current working directory".toList⟩
          (by decide))
    · exact absurd h.1.symm
        (hno ⟨.cmd_cd, "cd".toList,
          "changes current working directory on directory provided by arg".toList⟩
          (by decide))
    · exact h.2
  · intro hfound
    cases htok : tokens_get_token tokens 0 with
    | none =>
      rw [htok] at hfound
      exact absurd hfound (by decide)
    | some c =>
      rw [htok] at hfound key
      rcases lookup_cases c with h | h | h | h | h
      · refine ⟨⟨⟨.cmd_help, "?".toList, "show this help menu".toList⟩, ?_, ?_⟩, ?_⟩
        · rw [h.2]; rfl
        · rw [h.1]
        · rw [key 0 _ h.2 rfl]
          exact builtin_pass_log _ _ _ _ _
      · refine ⟨⟨⟨.cmd_exit, "exit".toList, "exit the command shell".toList⟩, ?_, ?_⟩, ?_⟩
        · rw [h.2]; rfl
        · rw [h.1]
        · rw [key 1 _ h.2 rfl]
          exact builtin_pass_log _ _ _ _ _
      · refine ⟨⟨⟨.cmd_pwd, "pwd".toList, "prints the current working directory".toList⟩,
          ?_, ?_⟩, ?_⟩
        · rw [h.2]; rfl
        · rw [h.1]
        · rw [key 2 _ h.2 rfl]
          exact builtin_pass_log _ _ _ _ _
      · refine ⟨⟨⟨.cmd_cd, "cd".toList,
          "changes current working directory on directory provided by arg".toList⟩,
          ?_, ?_⟩, ?_⟩
        · rw [h.2]; rfl
        · rw [h.1]
        · rw [key 3 _ h.2 rfl]
          exact builtin_pass_log _ _ _ _ _
      · rw [h.2] at hfound
        exact absurd hfound (by decide)
  · intro hidx
    have hm : main_pass os line_num tokens st
        = (cmd_help st).bind (next_prompt os line_num) := key 0 _ hidx rfl
    refine ⟨hm, ?_⟩
    rw [hm, cmd_help_prints]
    rfl
  · intro hidx
    have hm : main_pass os line_num tokens st
        = (cmd_exit st).bind (next_prompt os line_num) := key 1 _ hidx rfl
    exact ⟨hm, by rw [hm]; rfl⟩
  · intro hidx
    exact key 2 _ hidx rfl
  · intro hidx
    exact key 3 _ hidx rfl

/-- Witness for C4: "pwd" is entry 2, "ls" is in no entry, the pass on the
line "pwd" appends no spawning call to a log that already holds a fork, and
the pass on the line "exit" ends the process with status 0. -/
theorem lookup_dispatch_witness :
    lookup (some "pwd".toList) = 2
      ∧ ((∀ e ∈ cmd_table, e.cmd ≠ "ls".toList) ∧ lookup (some "ls".toList) = -1)
      ∧ (0 ≤ lookup (tokens_get_token ["pwd".toList] 0)
          ∧ ∃ extra,
              (main_pass (world none [] (fun _ => 'X')) 0 ["pwd".toList]
                ⟨.inherited, .inherited, [.fork, .wait]⟩).state.log
                = [.fork, .wait] ++ extra
              ∧ ∀ c ∈ extra, c.spawns = false)
      ∧ (lookup (tokens_get_token ["exit".toList] 0) = 1
          ∧ main_pass (world none [] (fun _ => 'X')) 0 ["exit".toList] startProc
            = .exited 0 (startProc.call (.exit 0))) :=
  ⟨(lookup_dispatch (world none [] (fun _ => 'X')) 0 ["pwd".toList] startProc
      "pwd".toList).2.1 2 _ rfl rfl,
    ⟨by decide,
      (lookup_dispatch (world none [] (fun _ => 'X')) 0 ["pwd".toList] startProc
        "ls".toList).2.2.1 (by decide)⟩,
    ⟨by decide,
      ((lookup_dispatch (world none [] (fun _ => 'X')) 0 ["pwd".toList]
        ⟨.inherited, .inherited, [.fork, .wait]⟩ "pwd".toList).2.2.2.2.1 (by decide)).2⟩,
    ⟨by decide,
      ((lookup_dispatch (world none [] (fun _ => 'X')) 0 ["exit".toList] startProc
        "exit".toList).2.2.2.2.2.2.1 (by decide)).2⟩⟩

/-- The prompt counter is an `int`: after line 2147483647 an interactive
shell prints "-2147483648: ". -/
theorem next_prompt_wraps (st : Proc) :
    next_prompt { world none [] (fun _ => 'X') with interactive := true } 2147483647 1 st
      = .ret (-2147483648) (st.call (.print "-2147483648: ".toList)) := by
  rfl

/-- C7: an input that begins with `/` is returned as it is, for every world
(PATH absent included) and with no call made: the process state, log
included, is the one `detpath` was entered with. -/
theorem detpath_absolute (os : OS) (s : List Char) (st : Proc) :
    detpath os (some ('/' :: s)) st = .ret (some (.text ('/' :: s))) st := by
  simp [detpath]

set_option smartUnfolding false in
/-- C1: with PATH="/usr/bin:/bin" and only "/bin/ls" present, `detpath "ls"`
asks `stat` about "/usr/bin/ls" alone and returns the buffer reading
"/bin/bin/ls"; the last entry, which no colon follows, is never probed. -/
theorem detpath_last_entry_unprobed (init : Nat → Char) :
    resolved (detpath (world (some "/usr/bin:/bin".toList) ["/bin/ls".toList] init)
        (some "ls".toList) startProc)
      = .ret (some "/bin/bin/ls".toList)
          ⟨.inherited, .inherited,
            [.opendir "ls".toList, .getenv "PATH".toList, .stat "/usr/bin/ls".toList]⟩ := by
  rfl

set_option smartUnfolding false in
/-- C5: `detpath` on a bare name does not give the null result when nothing
is found. With PATH="/usr/bin:" and no file at all it returns the buffer
reading "/usr/bin/foo", the candidate whose probe just failed; with PATH
empty it returns the freshly allocated buffer untouched; with PATH absent
the loop condition of `procpathenv` reads through the NULL pointer. In no
world where the path buffer is allocated does `detpath` return NULL. -/
theorem detpath_not_found_is_not_null (init : Nat → Char) :
    resolved (detpath (world (some "/usr/bin:".toList) [] init) (some "foo".toList) startProc)
        = .ret (some "/usr/bin/foo".toList)
            ⟨.inherited, .inherited,
              [.opendir "foo".toList, .getenv "PATH".toList, .stat "/usr/bin/foo".toList]⟩
      ∧ detpath (world (some []) [] init) (some "foo".toList) startProc
        = .ret (some (.block (fresh init MAX_PATH_SIZE)))
            ⟨.inherited, .inherited, [.opendir "foo".toList, .getenv "PATH".toList]⟩
      ∧ detpath (world none [] init) (some "foo".toList) startProc
        = .fault .nullDeref
            ⟨.inherited, .inherited, [.opendir "foo".toList, .getenv "PATH".toList]⟩
      ∧ ∀ (os : OS) (ppath : Option (List Char)) (st : Proc),
          returnsNull (detpath { os with pathBlock := some init } ppath st) = false := by
  refine ⟨?_, ?_, ?_, ?_⟩
  · rfl
  · rfl
  · rfl
  · intro os ppath st
    cases ppath with
    | none => rfl
    | some p =>
      unfold detpath
      simp only
      split
      · rfl
      · split
        · rfl
        · rfl
        · unfold procpathenv
          simp only
          cases os.PATH with
          | none => rfl
          | some e =>
            simp only
            generalize procpathenv_loop _ p e 0 _ _ = o
            cases o <;> rfl

set_option smartUnfolding false in
/-- C6: the entry "/b/" of PATH="/aaaaaaaaaaaa:/b/:" is probed for "ls" as
"/b/als", although "/b/ls" exists: the byte left at offset 3 by the earlier
candidate stands between entry and name. As first entry of PATH="/b/:" it is
probed with the byte the fresh buffer held there, "/b/Xls" for a block of
'X' bytes. -/
theorem procpathenv_stale_byte_after_slash (init : Nat → Char) :
    resolved (detpath (world (some "/aaaaaaaaaaaa:/b/:".toList) ["/b/ls".toList] init)
        (some "ls".toList) startProc)
        = .ret (some "/b/als".toList)
            ⟨.inherited, .inherited,
              [.opendir "ls".toList, .getenv "PATH".toList,
               .stat "/aaaaaaaaaaaa/ls".toList, .stat "/b/als".toList]⟩
      ∧ resolved (detpath (world (some "/b/:".toList) ["/b/ls".toList] (fun _ => 'X'))
        (some "ls".toList) startProc)
        = .ret (some "/b/Xls".toList)
            ⟨.inherited, .inherited,
              [.opendir "ls".toList, .getenv "PATH".toList, .stat "/b/Xls".toList]⟩ := by
  constructor <;> rfl

set_option smartUnfolding false in
/-- C8: for the line "cat > out.txt" with "/bin/cat" and "out.txt" present,
`shell_exec` returns in the parent with the interpreter's own standard output
bound to "out.txt": `open` and `dup2` are logged before `fork`. -/
theorem shell_exec_redirects_parent (init : Nat → Char) :
    shell_exec (world (some "/bin:".toList) ["/bin/cat".toList, "out.txt".toList] init)
        ["cat".toList, ">".toList, "out.txt".toList] startProc
      = .ret 1
          ⟨.inherited, .file "out.txt".toList,
            [.opendir "cat".toList, .getenv "PATH".toList, .stat "/bin/cat".toList,
             .openNonblock (some "out.txt".toList), .dup2 "out.txt".toList 1,
             .fork, .wait]⟩ := by
  rfl

set_option smartUnfolding false in
/-- C9: when the working directory does not fit the 128-byte buffer (128
characters and a terminator), or the query fails outright, `cmd_pwd` still
prints, showing whatever the buffer held ("stale" here), and returns 1. -/
theorem cmd_pwd_ignores_getcwd_failure :
    cmd_pwd
        { world none [] (staleBytes "stale".toList) with
            cwd := some ('/' :: List.replicate 127 'd') }
        startProc
        = .ret 1
            ⟨.inherited, .inherited,
              [.getcwd, .print "Path to current directory: stale\n".toList]⟩
      ∧ cmd_pwd { world none [] (staleBytes "stale".toList) with cwd := none } startProc
        = .ret 1
            ⟨.inherited, .inherited,
              [.getcwd, .print "Path to current directory: stale\n".toList]⟩ := by
  constructor <;> rfl

/-- C10: on the empty token sequence of a blank line the pass does not
complete: `lookup` answers -1 for the absent name, `shell_exec` hands the
absent name to `detpath`, which reads through the NULL pointer. Were that
read survived, `args_proc` would write `args[1]` in a vector of one slot. -/
theorem main_pass_blank_line_faults (os : OS) (line_num : Int) (st : Proc) (path : Option Str) :
    main_pass os line_num [] st = .fault .nullDeref st
      ∧ args_proc { os with argsAlloc := true } path [] st = .fault .outOfBounds st := by
  constructor
  · simp [main_pass, tokens_get_token, lookup, lookup_from, cmd_table, shell_exec, detpath,
      Outcome.bind]
  · simp [args_proc, store, args_copy]

end Shell
